import Mathlib

/-!
Verification development for the DCE/RPC-over-UDP state machine
(`src/rust/src/dcerpc/dcerpc_udp.rs`).

The Rust unit is shallowly embedded: byte slices are `List Nat` whose
entries denote bytes (the header decoder reduces each entry mod 256, as a
real byte slice only carries values below 256), machine integers are `Nat`
with explicit reduction mod 2^16 / 2^32 where the source's `u16`/`u32`
arithmetic can wrap, the single `usize -> i32` cast of the source is made
explicit by `i32_of_usize`, and the body-reassembly `while` loop is a
structurally recursive function whose fuel argument is the loop's own
strictly decreasing `input_left` counter, so the fuel never runs out
before the loop's exit condition holds.
-/

set_option maxRecDepth 100000

/-- Constant DCERPC UDP Header length (`DCERPC_UDP_HDR_LEN` in the source,
declared there as an `i32` with value 80; kept as a `Nat` here and cast to
`Int` where the source compares it against `i32` values). -/
def DCERPC_UDP_HDR_LEN : Nat := 80

/-- Modelled from the spec: the request packet-type tag imported from the
shared DCE/RPC module (`DCERPC_TYPE_REQUEST`), whose defining file is not
part of the sources at hand.  The spec only requires that request and
response are two distinct recognized packet types; the wire value of a
connectionless request PDU is 0. -/
def DCERPC_TYPE_REQUEST : Nat := 0

/-- Modelled from the spec: the response packet-type tag imported from the
shared DCE/RPC module (`DCERPC_TYPE_RESPONSE`); a value distinct from
`DCERPC_TYPE_REQUEST`. -/
def DCERPC_TYPE_RESPONSE : Nat := 2

/-- Modelled from the spec: the first-fragment flag bit (`PFC_FIRST_FRAG`)
imported from the shared DCE/RPC module.  The spec describes it as "a named
single-bit flag" within the first flags byte; bit 0x01 is used here. -/
def PFC_FIRST_FRAG : Nat := 1

/-- The parsed fixed-size UDP DCE/RPC header (`DCERPCHdrUdp` in the source).
Field widths: `u8` fields are naturals below 256, `u16` fields below 2^16,
`u32` fields below 2^32, and the `Vec<u8>` fields are byte lists. -/
structure DCERPCHdrUdp where
  rpc_vers : Nat
  pkt_type : Nat
  flags1 : Nat
  flags2 : Nat
  drep : List Nat
  serial_hi : Nat
  objectuuid : List Nat
  interfaceuuid : List Nat
  activityuuid : List Nat
  server_boot : Nat
  if_vers : Nat
  seqnum : Nat
  opnum : Nat
  ihint : Nat
  ahint : Nat
  fraglen : Nat
  fragnum : Nat
  auth_proto : Nat
  serial_lo : Nat
deriving Repr, DecidableEq

/-- Modelled from the spec: one per-call transaction record
(`DCERPCTransaction`, defined in the shared DCE/RPC module whose file is
not among the sources at hand).  Only the fields this unit reads or
writes are modelled: the process-local id, the call identifier, the
endianness flag, the two directional stub buffers with their `u16`
logical-length counters, the two directional done flags and the two
`u16` directional fragment counters. -/
structure DCERPCTransaction where
  id : Nat
  call_id : Nat
  endianness : Nat
  stub_data_buffer_ts : List Nat
  stub_data_buffer_len_ts : Nat
  stub_data_buffer_tc : List Nat
  stub_data_buffer_len_tc : Nat
  req_done : Bool
  resp_done : Bool
  frag_cnt_ts : Nat
  frag_cnt_tc : Nat
deriving Repr, DecidableEq

/-- Modelled from the spec: `DCERPCTransaction::new()` — a fresh transaction
with empty buffers, zero counters and cleared flags. -/
def DCERPCTransaction.new : DCERPCTransaction :=
  { id := 0
    call_id := 0
    endianness := 0
    stub_data_buffer_ts := []
    stub_data_buffer_len_ts := 0
    stub_data_buffer_tc := []
    stub_data_buffer_len_tc := 0
    req_done := false
    resp_done := false
    frag_cnt_ts := 0
    frag_cnt_tc := 0 }

/-- Modelled from the spec: a UUID history entry (`DCERPCUuidEntry`, defined
in the shared DCE/RPC module).  The spec describes it as "a 128-bit
identifier value plus free-form association metadata"; only the identifier
value is relevant to this unit, which copies the header's activity UUID
into it. -/
structure DCERPCUuidEntry where
  uuid : List Nat
deriving Repr, DecidableEq

/-- Modelled from the spec: `DCERPCUuidEntry::new()`. -/
def DCERPCUuidEntry.new : DCERPCUuidEntry := { uuid := [] }

/-- Modelled from the spec: the host engine's two-valued parse result
(`AppLayerResult`): `Ok` (datagram accepted) or `Err` (datagram rejected).
The spec's call-in contract states there is no third variant at this level. -/
inductive AppLayerResult where
  | ok : AppLayerResult
  | err : AppLayerResult
deriving Repr, DecidableEq

/-- The per-flow state (`DCERPCUDPState` in the source).  The two foreign
handles (`de_state`, a raw detection-engine pointer, and `tx_data`) are
opaque to this unit and modelled by placeholder fields. -/
structure DCERPCUDPState where
  tx_id : Nat
  header : Option DCERPCHdrUdp
  transactions : List DCERPCTransaction
  fraglenleft : Nat
  uuid_entry : Option DCERPCUuidEntry
  uuid_list : List DCERPCUuidEntry
  de_state : Option Unit
deriving Repr, DecidableEq

/-- `DCERPCUDPState::new()`. -/
def DCERPCUDPState.new : DCERPCUDPState :=
  { tx_id := 0
    header := none
    transactions := []
    fraglenleft := 0
    uuid_entry := none
    uuid_list := []
    de_state := none }

/-- The `usize -> i32` cast (`input.len() as i32` in `handle_input_data`):
truncate to 32 bits and reinterpret as a signed value. -/
def i32_of_usize (n : Nat) : Int :=
  if n % 4294967296 < 2147483648 then ((n % 4294967296 : Nat) : Int)
  else ((n % 4294967296 : Nat) : Int) - 4294967296

/-- `u16::rotate_left(8)` on a value already reduced mod 2^16. -/
def u16_rotate_left8 (x : Nat) : Nat :=
  (((x % 65536) <<< 8) ||| ((x % 65536) >>> 8)) % 65536

/-- Modelled from the spec: the field extraction performed by the external
Header Codec (`parser::parse_dcerpc_udp_header`, defined in the `parser`
module which is not among the sources at hand).  Per the spec's wire
format, the header is a fixed 80-byte layout and every multi-byte integer
field is read in the byte order selected by bit 0x10 of the first
byte-order-descriptor (`drep`) byte.  The spec's field list shows a
4-byte `drep`, but its own 80-byte total and the unit tests shipped with
the source (an exactly-80-byte buffer parses, consuming 80 bytes, with
the fragment length at offsets 74..75) force the connectionless layout
with a 3-byte `drep`: version(1) type(1) flags1(1) flags2(1) drep(3)
serial_hi(1) object-UUID(16) interface-UUID(16) activity-UUID(16)
boot-time(4) interface-version(4) sequence(4) opnum(2) ihint(2) ahint(2)
fraglen(2) fragnum(2) auth-proto(1) serial_lo(1).  Each byte read is
reduced mod 256 since a real byte slice only carries values below 256. -/
def decode_header_fields (input : List Nat) : DCERPCHdrUdp :=
  let b : Nat → Nat := fun i => (input.getD i 0) % 256
  let le : Bool := b 4 &&& 16 != 0
  let u16at : Nat → Nat := fun i =>
    if le then b i + 256 * b (i + 1) else 256 * b i + b (i + 1)
  let u32at : Nat → Nat := fun i =>
    if le then b i + 256 * b (i + 1) + 65536 * b (i + 2) + 16777216 * b (i + 3)
    else 16777216 * b i + 65536 * b (i + 1) + 256 * b (i + 2) + b (i + 3)
  { rpc_vers := b 0
    pkt_type := b 1
    flags1 := b 2
    flags2 := b 3
    drep := [b 4, b 5, b 6]
    serial_hi := b 7
    objectuuid := ((input.drop 8).take 16).map (· % 256)
    interfaceuuid := ((input.drop 24).take 16).map (· % 256)
    activityuuid := ((input.drop 40).take 16).map (· % 256)
    server_boot := u32at 56
    if_vers := u32at 60
    seqnum := u32at 64
    opnum := u16at 68
    ihint := u16at 70
    ahint := u16at 72
    fraglen := u16at 74
    fragnum := u16at 76
    auth_proto := b 78
    serial_lo := b 79 }

/-- Modelled from the spec: the external Header Codec
`parser::parse_dcerpc_udp_header(bytes) -> (leftover, header) | error`.
It consumes exactly the fixed 80-byte header (the spec: "always 80 for a
fixed-size header"), failing with an incomplete-data error on shorter
input; a fixed-layout byte-field decoder has no other failure mode.  The
leftover slice is represented by its length. -/
def parse_dcerpc_udp_header (input : List Nat) : Option (Nat × DCERPCHdrUdp) :=
  if input.length < DCERPC_UDP_HDR_LEN then none
  else some (input.length - DCERPC_UDP_HDR_LEN, decode_header_fields input)

/-- `DCERPCUDPState::get_hdr_drep_0`: first byte-order-descriptor byte of the
installed header, or 0 when no header is installed.  The source indexes
`hdr.drep[0]`; a parsed header always has a 3-byte `drep`, and `headD`
models that in-bounds access. -/
def get_hdr_drep_0 (s : DCERPCUDPState) : Nat :=
  match s.header with
  | some hdr => hdr.drep.headD 0
  | none => 0

/-- `DCERPCUDPState::get_hdr_flags1`. -/
def get_hdr_flags1 (s : DCERPCUDPState) : Option Nat :=
  match s.header with
  | some hdr => some hdr.flags1
  | none => none

/-- `DCERPCUDPState::get_hdr_pkt_type`. -/
def get_hdr_pkt_type (s : DCERPCUDPState) : Option Nat :=
  match s.header with
  | some hdr => some hdr.pkt_type
  | none => none

/-- `DCERPCUDPState::get_hdr_fraglen`. -/
def get_hdr_fraglen (s : DCERPCUDPState) : Option Nat :=
  match s.header with
  | some hdr => some hdr.fraglen
  | none => none

/-- `DCERPCUDPState::evaluate_serial_no`: rebuild the 16-bit serial number
from the installed header's serial-high/serial-low bytes under the byte
order selected by bit 0x10 of `drep[0]`.  The source works in `u16`
(`serial_lo as u16`, `rotate_left(8)`, bitwise or with `serial_hi as u16`). -/
def evaluate_serial_no (s : DCERPCUDPState) : Nat :=
  let endianness := get_hdr_drep_0 s
  let sh : Nat × Nat :=
    match s.header with
    | some hdr => (hdr.serial_hi, hdr.serial_lo)
    | none => (0, 0)
  if endianness &&& 16 = 0 then
    u16_rotate_left8 (sh.2 % 65536) ||| (sh.1 % 65536)
  else
    u16_rotate_left8 (sh.1 % 65536) ||| (sh.2 % 65536)

/-- The serial number as a pure function of a header record; used to state
that `evaluate_serial_no` depends only on the installed header. -/
def serial_of_header (hdr : DCERPCHdrUdp) : Nat :=
  if hdr.drep.headD 0 &&& 16 = 0 then
    u16_rotate_left8 (hdr.serial_lo % 65536) ||| (hdr.serial_hi % 65536)
  else
    u16_rotate_left8 (hdr.serial_hi % 65536) ||| (hdr.serial_lo % 65536)

/-- `DCERPCUDPState::create_tx`: allocate a fresh transaction with the next
process-local id, the given call identifier and the endianness bit of the
installed header; the `u32` id counter is then incremented (mod 2^32).
The transaction is returned, not inserted. -/
def create_tx (s : DCERPCUDPState) (serial_no : Nat) :
    DCERPCTransaction × DCERPCUDPState :=
  let endianness := get_hdr_drep_0 s &&& 16
  let tx : DCERPCTransaction :=
    { DCERPCTransaction.new with
        id := s.tx_id
        call_id := serial_no
        endianness := endianness }
  (tx, { s with tx_id := (s.tx_id + 1) % 4294967296 })

/-- `DCERPCUDPState::find_tx`: linear scan of the transaction list for the
first transaction whose `call_id` equals the serial number; the returned
index records where that first match sits. -/
def find_tx : List DCERPCTransaction → Nat → Option (Nat × DCERPCTransaction)
  | [], _ => none
  | tx :: rest, serial_no =>
      if tx.call_id = serial_no then some (0, tx)
      else
        match find_tx rest serial_no with
        | none => none
        | some (i, t) => some (i + 1, t)

/-- `evaluate_stub_params`: take `min lenleft input_len` bytes from the front
of `input`; on a first fragment reset the logical length counter to 0
first (the byte storage is untouched); append the bytes and add the count
to the `u16` logical length (mod 2^16); return the count.  The returned
triple is (count, new buffer, new logical length). -/
def evaluate_stub_params (input : List Nat) (input_len : Nat) (hdrflags : Nat)
    (lenleft : Nat) (stub_data_buffer : List Nat) (stub_data_buffer_len : Nat) :
    Nat × List Nat × Nat :=
  let stub_len := min lenleft input_len
  if stub_len = 0 then (0, stub_data_buffer, stub_data_buffer_len)
  else
    let len0 := if hdrflags &&& PFC_FIRST_FRAG > 0 then 0 else stub_data_buffer_len
    (stub_len, stub_data_buffer ++ input.take stub_len, (len0 + stub_len) % 65536)

/-- `DCERPCUDPState::handle_fragment_data`: snapshot flags, remaining length,
packet type and serial number; look up the first matching transaction;
dispatch on the packet type to amass stub data into the matching
direction's buffer (marking the done flag and bumping the `u16` fragment
counter mod 2^16); then decrement the remaining-fragment-length counter
by the returned count.  With no matching transaction or an unrecognized
packet type, return 0 and leave the state untouched. -/
def handle_fragment_data (s : DCERPCUDPState) (input : List Nat)
    (input_len : Nat) : Nat × DCERPCUDPState :=
  let hdrflags1 := (get_hdr_flags1 s).getD 0
  let fraglenleft := s.fraglenleft
  let hdrtype := (get_hdr_pkt_type s).getD 0
  let serial_no := evaluate_serial_no s
  match find_tx s.transactions serial_no with
  | none => (0, s)
  | some (i, tx) =>
      if hdrtype = DCERPC_TYPE_REQUEST then
        let r := evaluate_stub_params input input_len hdrflags1 fraglenleft
          tx.stub_data_buffer_ts tx.stub_data_buffer_len_ts
        let tx' := { tx with
          stub_data_buffer_ts := r.2.1
          stub_data_buffer_len_ts := r.2.2
          req_done := true
          frag_cnt_ts := (tx.frag_cnt_ts + 1) % 65536 }
        (r.1, { s with
          transactions := s.transactions.set i tx'
          fraglenleft := s.fraglenleft - r.1 })
      else if hdrtype = DCERPC_TYPE_RESPONSE then
        let r := evaluate_stub_params input input_len hdrflags1 fraglenleft
          tx.stub_data_buffer_tc tx.stub_data_buffer_len_tc
        let tx' := { tx with
          stub_data_buffer_tc := r.2.1
          stub_data_buffer_len_tc := r.2.2
          resp_done := true
          frag_cnt_tc := (tx.frag_cnt_tc + 1) % 65536 }
        (r.1, { s with
          transactions := s.transactions.set i tx'
          fraglenleft := s.fraglenleft - r.1 })
      else (0, s)

/-- `DCERPCUDPState::process_header`: run the header decoder; fail (returning
-1 and an unchanged state) on a decode error or when the decoded
`rpc_vers` is not 4; otherwise append a UUID entry carrying the activity
UUID, install the header, and return the consumed byte count as an `i32`. -/
def process_header (s : DCERPCUDPState) (input : List Nat) :
    Int × DCERPCUDPState :=
  match parse_dcerpc_udp_header input with
  | some (leftover_len, header) =>
      if header.rpc_vers ≠ 4 then (-1, s)
      else
        let uuidentry : DCERPCUuidEntry :=
          { DCERPCUuidEntry.new with uuid := header.activityuuid }
        (((input.length - leftover_len : Nat) : Int),
          { s with
              uuid_list := s.uuid_list ++ [uuidentry]
              header := some header })
  | none => (-1, s)

/-- The body-reassembly `while` loop of `handle_input_data`:
`while parsed >= DCERPC_UDP_HDR_LEN && parsed < fraglen && input_left > 0`.
Each continuing iteration passes `input_left as u16` (mod 2^16) to
`handle_fragment_data` and advances by the returned count when it is
positive and within that bound; otherwise the loop body discards the
remaining input and the loop exits (the source zeroes `input_left`, which
falsifies the loop condition, so returning here is the same exit).  The
fuel argument is instantiated with `input_left` itself: a continuing
iteration consumes one fuel and decreases `input_left` by at least one,
so `fuel >= input_left` is invariant and fuel 0 forces `input_left = 0`,
where the loop condition is false anyway. -/
def dcerpc_udp_body_loop (input : List Nat) (fraglen : Nat) :
    Nat → Nat → Nat → DCERPCUDPState → DCERPCUDPState
  | 0, _, _, s => s
  | fuel + 1, parsed, input_left, s =>
      if DCERPC_UDP_HDR_LEN ≤ parsed ∧ parsed < fraglen ∧ 0 < input_left then
        let r := handle_fragment_data s (input.drop parsed) (input_left % 65536)
        if 0 < r.1 ∧ r.1 ≤ input_left % 65536 then
          dcerpc_udp_body_loop input fraglen fuel (parsed + r.1)
            (input_left - r.1) r.2
        else r.2
      else s

/-- `DCERPCUDPState::handle_input_data`: reject (as the source does, by
comparing `input.len() as i32` with the header length) inputs whose
length casts below 80; parse and install the header, rejecting on
failure; initialize the remaining-fragment-length counter from the
header's fragment length; derive the serial number, create and append
one new transaction; then run the body-reassembly loop and report
success. -/
def handle_input_data (s : DCERPCUDPState) (input : List Nat) :
    AppLayerResult × DCERPCUDPState :=
  if i32_of_usize input.length < (DCERPC_UDP_HDR_LEN : Int) then
    (AppLayerResult.err, s)
  else
    let ph := process_header s input
    if ph.1 = -1 then (AppLayerResult.err, ph.2)
    else
      let parsed : Nat := ph.1.toNat
      let input_left : Nat := (i32_of_usize input.length - ph.1).toNat
      let fraglen : Nat := (get_hdr_fraglen ph.2).getD 0
      let s2 := { ph.2 with fraglenleft := fraglen }
      let serial_no := evaluate_serial_no s2
      let ct := create_tx s2 serial_no
      let s4 := { ct.2 with transactions := ct.2.transactions ++ [ct.1] }
      (AppLayerResult.ok,
        dcerpc_udp_body_loop input fraglen input_left parsed input_left s4)

/-- Feeding a sequence of datagrams to one flow state, starting from
`DCERPCUDPState::new()`; the state left by each `handle_input_data` call
(also on error, where it is unchanged) is the input of the next. -/
def process_datagrams (ds : List (List Nat)) : DCERPCUDPState :=
  ds.foldl (fun s d => (handle_input_data s d).2) DCERPCUDPState.new

/-- A well-formed test datagram: version 4, packet type request, the given
first flags byte, little-endian byte-order descriptor (drep byte 0 =
0x10), zero serial number, fragment length given by two little-endian
bytes at offsets 74/75, followed by the body. -/
def mkInput (flags1 fragLo fragHi : Nat) (body : List Nat) : List Nat :=
  4 :: 0 :: flags1 :: 0 :: 16 :: 0 :: 0 :: 0 ::
    (List.replicate 66 0 ++ (fragLo :: fragHi :: 0 :: 0 :: 0 :: 0 :: body))

/-! ### Generic list access helpers -/

theorem list_getD_append_last {α : Type} (l : List α) (a d : α) :
    (l ++ [a]).getD l.length d = a := by
  simp [List.getD]

theorem list_getD_set_self {α : Type} (l : List α) (i : Nat) (a d : α)
    (h : i < l.length) : (l.set i a).getD i d = a := by
  simp [List.getD, List.getElem?_set_self', h, List.getElem?_eq_getElem]

theorem list_getD_set_ne {α : Type} (l : List α) (i j : Nat) (a d : α)
    (h : j ≠ i) : (l.set i a).getD j d = l.getD j d := by
  simp [List.getD, List.getElem?_set_ne (Ne.symm h)]

theorem list_getD_append_left {α : Type} (l1 l2 : List α) (i : Nat) (d : α)
    (h : i < l1.length) : (l1 ++ l2).getD i d = l1.getD i d := by
  simp [List.getD, List.getElem?_append, h]

/-! ### Arithmetic and header-codec helpers -/

theorem i32_of_usize_small {n : Nat} (h : n < 2147483648) :
    i32_of_usize n = n := by
  unfold i32_of_usize
  rw [Nat.mod_eq_of_lt (show n < 4294967296 by omega), if_pos h]

theorem len_ge_80_of_cast {n : Nat} (h : ¬ i32_of_usize n < 80) : 80 ≤ n := by
  unfold i32_of_usize at h
  split at h
  · have h1 : (80 : Int) ≤ ((n % 4294967296 : Nat) : Int) := by omega
    have h2 : n % 4294967296 ≤ n := Nat.mod_le n 4294967296
    omega
  · have h3 : n % 4294967296 < 4294967296 := Nat.mod_lt _ (by norm_num)
    omega

theorem decode_fraglen_lt (input : List Nat) :
    (decode_header_fields input).fraglen < 65536 := by
  have h74 : input.getD 74 0 % 256 < 256 := Nat.mod_lt _ (by norm_num)
  have h75 : input.getD 75 0 % 256 < 256 := Nat.mod_lt _ (by norm_num)
  unfold decode_header_fields
  dsimp only
  split <;> omega

theorem parse_header_eq {input : List Nat} (h : 80 ≤ input.length) :
    parse_dcerpc_udp_header input
      = some (input.length - 80, decode_header_fields input) := by
  unfold parse_dcerpc_udp_header DCERPC_UDP_HDR_LEN
  rw [if_neg (by omega)]

theorem parse_header_none_iff (input : List Nat) :
    parse_dcerpc_udp_header input = none ↔ input.length < 80 := by
  unfold parse_dcerpc_udp_header DCERPC_UDP_HDR_LEN
  split
  · simp_all
  · simp_all

theorem evaluate_serial_no_header {s : DCERPCUDPState} {hdr : DCERPCHdrUdp}
    (h : s.header = some hdr) :
    evaluate_serial_no s = serial_of_header hdr := by
  unfold evaluate_serial_no serial_of_header get_hdr_drep_0
  rw [h]

theorem process_header_success (s : DCERPCUDPState) (input : List Nat)
    (hlen : 80 ≤ input.length)
    (hvers : (decode_header_fields input).rpc_vers = 4) :
    process_header s input
      = (80,
          { s with
              uuid_list := s.uuid_list
                ++ [{ uuid := (decode_header_fields input).activityuuid }]
              header := some (decode_header_fields input) }) := by
  unfold process_header
  rw [parse_header_eq hlen]
  dsimp only
  rw [if_neg (by simp [hvers])]
  have hsub : input.length - (input.length - 80) = 80 := by omega
  rw [hsub]
  rfl

theorem process_header_neg_one_iff (s : DCERPCUDPState) (input : List Nat) :
    (process_header s input).1 = -1
      ↔ (input.length < 80 ∨ (decode_header_fields input).rpc_vers ≠ 4) := by
  by_cases hlen : 80 ≤ input.length
  · by_cases hvers : (decode_header_fields input).rpc_vers = 4
    · rw [process_header_success s input hlen hvers]
      simp
      omega
    · unfold process_header
      rw [parse_header_eq hlen]
      dsimp only
      rw [if_pos (by simp [hvers])]
      simpa using Or.inr hvers
  · unfold process_header
    rw [(parse_header_none_iff input).2 (by omega)]
    simpa using Or.inl (by omega)

theorem process_header_neg_state (s : DCERPCUDPState) (input : List Nat)
    (h : (process_header s input).1 = -1) :
    (process_header s input).2 = s := by
  rcases hp : parse_dcerpc_udp_header input with _ | ⟨l, hdr⟩
  · unfold process_header
    rw [hp]
  · unfold process_header at h ⊢
    rw [hp] at h ⊢
    dsimp only at h ⊢
    by_cases hv : hdr.rpc_vers = 4
    · rw [if_neg (by simp [hv])] at h
      exfalso
      have hl : l = input.length - 80 ∧ 80 ≤ input.length := by
        unfold parse_dcerpc_udp_header DCERPC_UDP_HDR_LEN at hp
        split at hp
        · cases hp
        · cases hp
          constructor
          · rfl
          · omega
      rw [show input.length - l = 80 by omega] at h
      norm_num at h
    · rw [if_pos (by simp [hv])]

/-! ### Stub-assembler and fragment-handling helpers -/

theorem evaluate_stub_params_fst_le (input : List Nat)
    (input_len hdrflags lenleft : Nat) (buf : List Nat) (blen : Nat) :
    (evaluate_stub_params input input_len hdrflags lenleft buf blen).1
      ≤ min lenleft input_len := by
  unfold evaluate_stub_params
  dsimp only
  split
  · omega
  · exact le_refl _

theorem evaluate_stub_params_buf (input : List Nat)
    (input_len hdrflags lenleft : Nat) (buf : List Nat) (blen : Nat) :
    (evaluate_stub_params input input_len hdrflags lenleft buf blen).2.1
      = buf ++ input.take (min lenleft input_len) := by
  unfold evaluate_stub_params
  dsimp only
  split
  · rename_i h
    rw [h]
    simp
  · rfl

theorem find_tx_spec :
    ∀ (l : List DCERPCTransaction) (serial_no i : Nat) (t : DCERPCTransaction),
    find_tx l serial_no = some (i, t) →
    i < l.length ∧ l.getD i DCERPCTransaction.new = t ∧ t.call_id = serial_no ∧
      ∀ j, j < i → (l.getD j DCERPCTransaction.new).call_id ≠ serial_no := by
  intro l
  induction l with
  | nil => intro serial_no i t h; cases h
  | cons hd tl ih =>
      intro serial_no i t h
      unfold find_tx at h
      by_cases hc : hd.call_id = serial_no
      · rw [if_pos hc] at h
        simp only [Option.some.injEq, Prod.mk.injEq] at h
        obtain ⟨hi2, ht2⟩ := h
        subst hi2
        subst ht2
        refine ⟨by simp, by simp, hc, ?_⟩
        intro j hj
        omega
      · rw [if_neg hc] at h
        rcases hf : find_tx tl serial_no with _ | p
        · rw [hf] at h
          cases h
        · obtain ⟨i2, t2⟩ := p
          rw [hf] at h
          simp only [Option.some.injEq, Prod.mk.injEq] at h
          obtain ⟨hi2, ht2⟩ := h
          subst hi2
          subst ht2
          obtain ⟨h1, h2, h3, h4⟩ := ih serial_no i2 t2 hf
          refine ⟨by simp; omega, by simpa using h2, h3, ?_⟩
          intro j hj
          match j with
          | 0 => simpa using hc
          | Nat.succ k =>
              have hk : k < i2 := by omega
              simpa using h4 k hk

theorem handle_fragment_data_retval_le (s : DCERPCUDPState) (input : List Nat)
    (input_len : Nat) :
    (handle_fragment_data s input input_len).1 ≤ min s.fraglenleft input_len := by
  unfold handle_fragment_data
  dsimp only
  rcases hf : find_tx s.transactions (evaluate_serial_no s) with _ | ⟨i, tx⟩
  · dsimp only
    omega
  · dsimp only
    split
    · exact evaluate_stub_params_fst_le ..
    · split
      · exact evaluate_stub_params_fst_le ..
      · omega

theorem handle_fragment_data_fraglenleft (s : DCERPCUDPState) (input : List Nat)
    (input_len : Nat) :
    (handle_fragment_data s input input_len).2.fraglenleft
      = s.fraglenleft - (handle_fragment_data s input input_len).1 := by
  unfold handle_fragment_data
  dsimp only
  rcases hf : find_tx s.transactions (evaluate_serial_no s) with _ | ⟨i, tx⟩
  · rfl
  · dsimp only
    split
    · rfl
    · split
      · rfl
      · rfl

theorem handle_fragment_data_preserved (s : DCERPCUDPState) (input : List Nat)
    (input_len : Nat) :
    (handle_fragment_data s input input_len).2.transactions.length
        = s.transactions.length ∧
    (handle_fragment_data s input input_len).2.tx_id = s.tx_id ∧
    (handle_fragment_data s input input_len).2.header = s.header ∧
    (handle_fragment_data s input input_len).2.uuid_list = s.uuid_list ∧
    ∀ j,
      ((handle_fragment_data s input input_len).2.transactions.getD j
          DCERPCTransaction.new).call_id
        = (s.transactions.getD j DCERPCTransaction.new).call_id ∧
      ((handle_fragment_data s input input_len).2.transactions.getD j
          DCERPCTransaction.new).id
        = (s.transactions.getD j DCERPCTransaction.new).id ∧
      ((handle_fragment_data s input input_len).2.transactions.getD j
          DCERPCTransaction.new).endianness
        = (s.transactions.getD j DCERPCTransaction.new).endianness := by
  unfold handle_fragment_data
  dsimp only
  rcases hf : find_tx s.transactions (evaluate_serial_no s) with _ | ⟨i, tx⟩
  · exact ⟨rfl, rfl, rfl, rfl, fun j => ⟨rfl, rfl, rfl⟩⟩
  · obtain ⟨hi, hgd, hcid, hfirst⟩ := find_tx_spec _ _ _ _ hf
    dsimp only
    split
    · refine ⟨by simp, rfl, rfl, rfl, ?_⟩
      intro j
      by_cases hj : j = i
      · subst hj
        rw [list_getD_set_self _ _ _ _ hi, hgd]
        exact ⟨rfl, rfl, rfl⟩
      · rw [list_getD_set_ne _ _ _ _ _ hj]
        exact ⟨rfl, rfl, rfl⟩
    · split
      · refine ⟨by simp, rfl, rfl, rfl, ?_⟩
        intro j
        by_cases hj : j = i
        · subst hj
          rw [list_getD_set_self _ _ _ _ hi, hgd]
          exact ⟨rfl, rfl, rfl⟩
        · rw [list_getD_set_ne _ _ _ _ _ hj]
          exact ⟨rfl, rfl, rfl⟩
      · exact ⟨rfl, rfl, rfl, rfl, fun j => ⟨rfl, rfl, rfl⟩⟩

/-! ### Body-loop helpers -/

theorem body_loop_il_zero (input : List Nat) (fraglen fuel parsed : Nat)
    (s : DCERPCUDPState) :
    dcerpc_udp_body_loop input fraglen fuel parsed 0 s = s := by
  cases fuel with
  | zero => rfl
  | succ f =>
      unfold dcerpc_udp_body_loop
      rw [if_neg (fun h => absurd h.2.2 (by omega))]

theorem body_loop_unfold (input : List Nat) (fraglen fuel parsed il : Nat)
    (s : DCERPCUDPState) (h : 0 < fuel) :
    dcerpc_udp_body_loop input fraglen fuel parsed il s
      = if DCERPC_UDP_HDR_LEN ≤ parsed ∧ parsed < fraglen ∧ 0 < il then
          (let r := handle_fragment_data s (input.drop parsed) (il % 65536)
           if 0 < r.1 ∧ r.1 ≤ il % 65536 then
             dcerpc_udp_body_loop input fraglen (fuel - 1) (parsed + r.1)
               (il - r.1) r.2
           else r.2)
        else s := by
  obtain ⟨f, rfl⟩ : ∃ f, fuel = f + 1 := ⟨fuel - 1, by omega⟩
  rfl

theorem body_loop_preserved (input : List Nat) (fraglen : Nat) :
    ∀ (fuel parsed il : Nat) (s : DCERPCUDPState),
    (dcerpc_udp_body_loop input fraglen fuel parsed il s).transactions.length
        = s.transactions.length ∧
    (dcerpc_udp_body_loop input fraglen fuel parsed il s).tx_id = s.tx_id ∧
    (dcerpc_udp_body_loop input fraglen fuel parsed il s).header = s.header ∧
    (dcerpc_udp_body_loop input fraglen fuel parsed il s).uuid_list
        = s.uuid_list ∧
    ∀ j,
      ((dcerpc_udp_body_loop input fraglen fuel parsed il s).transactions.getD j
          DCERPCTransaction.new).call_id
        = (s.transactions.getD j DCERPCTransaction.new).call_id ∧
      ((dcerpc_udp_body_loop input fraglen fuel parsed il s).transactions.getD j
          DCERPCTransaction.new).id
        = (s.transactions.getD j DCERPCTransaction.new).id ∧
      ((dcerpc_udp_body_loop input fraglen fuel parsed il s).transactions.getD j
          DCERPCTransaction.new).endianness
        = (s.transactions.getD j DCERPCTransaction.new).endianness := by
  intro fuel
  induction fuel with
  | zero =>
      intro parsed il s
      exact ⟨rfl, rfl, rfl, rfl, fun j => ⟨rfl, rfl, rfl⟩⟩
  | succ f ih =>
      intro parsed il s
      unfold dcerpc_udp_body_loop
      split
      · dsimp only
        split
        · obtain ⟨e1, e2, e3, e4, e5⟩ :=
            ih (parsed + (handle_fragment_data s (input.drop parsed)
                  (il % 65536)).1)
              (il - (handle_fragment_data s (input.drop parsed) (il % 65536)).1)
              (handle_fragment_data s (input.drop parsed) (il % 65536)).2
          obtain ⟨f1, f2, f3, f4, f5⟩ :=
            handle_fragment_data_preserved s (input.drop parsed) (il % 65536)
          exact ⟨e1.trans f1, e2.trans f2, e3.trans f3, e4.trans f4,
            fun j => ⟨(e5 j).1.trans (f5 j).1, (e5 j).2.1.trans (f5 j).2.1,
              (e5 j).2.2.trans (f5 j).2.2⟩⟩
        · exact handle_fragment_data_preserved s (input.drop parsed) (il % 65536)
      · exact ⟨rfl, rfl, rfl, rfl, fun j => ⟨rfl, rfl, rfl⟩⟩

/-! ### Shape of handle_input_data on the two top-level paths -/

theorem handle_input_data_success (s : DCERPCUDPState) (input : List Nat)
    (hcast : ¬ i32_of_usize input.length < 80)
    (hvers : (decode_header_fields input).rpc_vers = 4) :
    handle_input_data s input =
      (AppLayerResult.ok,
        dcerpc_udp_body_loop input (decode_header_fields input).fraglen
          ((i32_of_usize input.length - 80).toNat) 80
          ((i32_of_usize input.length - 80).toNat)
          { s with
              uuid_list := s.uuid_list
                ++ [{ uuid := (decode_header_fields input).activityuuid }]
              header := some (decode_header_fields input)
              fraglenleft := (decode_header_fields input).fraglen
              tx_id := (s.tx_id + 1) % 4294967296
              transactions := s.transactions ++
                [{ DCERPCTransaction.new with
                    id := s.tx_id
                    call_id := serial_of_header (decode_header_fields input)
                    endianness :=
                      (decode_header_fields input).drep.headD 0 &&& 16 }] }) := by
  have hlen : 80 ≤ input.length := len_ge_80_of_cast hcast
  unfold handle_input_data
  rw [if_neg (by exact fun hlt => hcast (by simpa [DCERPC_UDP_HDR_LEN] using hlt))]
  rw [process_header_success s input hlen hvers]
  dsimp only
  rw [if_neg (by norm_num)]
  rw [@evaluate_serial_no_header _ (decode_header_fields input) rfl]
  unfold create_tx get_hdr_drep_0 get_hdr_fraglen
  dsimp only
  rfl

theorem handle_input_data_err_iff (s : DCERPCUDPState) (input : List Nat) :
    (handle_input_data s input).1 = AppLayerResult.err
      ↔ (i32_of_usize input.length < 80 ∨ input.length < 80
          ∨ (decode_header_fields input).rpc_vers ≠ 4) := by
  constructor
  · intro h
    by_cases hcast : i32_of_usize input.length < 80
    · exact Or.inl hcast
    · by_cases hvers : (decode_header_fields input).rpc_vers = 4
      · exfalso
        rw [handle_input_data_success s input hcast hvers] at h
        cases h
      · exact Or.inr (Or.inr hvers)
  · intro h
    by_cases hcast : i32_of_usize input.length < 80
    · unfold handle_input_data
      rw [if_pos (by simpa [DCERPC_UDP_HDR_LEN] using hcast)]
    · have hlen : 80 ≤ input.length := len_ge_80_of_cast hcast
      have hvers : (decode_header_fields input).rpc_vers ≠ 4 := by
        rcases h with h | h | h
        · exact absurd h hcast
        · omega
        · exact h
      unfold handle_input_data
      rw [if_neg (by simpa [DCERPC_UDP_HDR_LEN] using hcast)]
      dsimp only
      rw [if_pos ((process_header_neg_one_iff s input).2 (Or.inr hvers))]

theorem handle_input_data_err_state (s : DCERPCUDPState) (input : List Nat)
    (h : (handle_input_data s input).1 = AppLayerResult.err) :
    (handle_input_data s input).2 = s := by
  by_cases hcast : i32_of_usize input.length < 80
  · unfold handle_input_data
    rw [if_pos (by simpa [DCERPC_UDP_HDR_LEN] using hcast)]
  · by_cases hvers : (decode_header_fields input).rpc_vers = 4
    · exfalso
      rw [handle_input_data_success s input hcast hvers] at h
      cases h
    · have hneg : (process_header s input).1 = -1 :=
        (process_header_neg_one_iff s input).2 (Or.inr hvers)
      unfold handle_input_data
      rw [if_neg (by simpa [DCERPC_UDP_HDR_LEN] using hcast)]
      dsimp only
      rw [if_pos hneg]
      exact process_header_neg_state s input hneg

/-! ### Small access helpers for an installed header -/

theorem get_hdr_flags1_some {s : DCERPCUDPState} {hdr : DCERPCHdrUdp}
    (h : s.header = some hdr) : get_hdr_flags1 s = some hdr.flags1 := by
  unfold get_hdr_flags1
  rw [h]

theorem get_hdr_pkt_type_some {s : DCERPCUDPState} {hdr : DCERPCHdrUdp}
    (h : s.header = some hdr) : get_hdr_pkt_type s = some hdr.pkt_type := by
  unfold get_hdr_pkt_type
  rw [h]

theorem u16_rotate_or_byte (x y : Nat) (hx : x < 256) (hy : y < 256) :
    u16_rotate_left8 (x % 65536) ||| (y % 65536) = (x <<< 8) ||| y := by
  have hx1 : x % 65536 = x := Nat.mod_eq_of_lt (by omega)
  have hy1 : y % 65536 = y := Nat.mod_eq_of_lt (by omega)
  have h1 : x >>> 8 = 0 := by
    rw [Nat.shiftRight_eq_div_pow]
    exact Nat.div_eq_of_lt (by norm_num; omega)
  have h2 : (x <<< 8) % 65536 = x <<< 8 := by
    rw [Nat.shiftLeft_eq]
    exact Nat.mod_eq_of_lt (by norm_num; omega)
  unfold u16_rotate_left8
  simp only [hx1, hy1]
  rw [h1, Nat.or_zero, h2]

/-! ### Claim C3 -/

/-- C3: for every call of `evaluate_stub_params` with `input_len` no larger
than the length of `input`, let `take = min lenleft input_len`; if `take = 0`
the call returns 0 and mutates nothing; otherwise, when the `PFC_FIRST_FRAG`
bit of `hdrflags` is set the logical length counter is first reset to 0 (the
byte storage itself is neither cleared nor shrunk: the returned buffer is the
old buffer plus the appended bytes), then exactly `take` bytes from the front
of `input` are appended to the buffer, the 16-bit logical length counter is
increased by `take` (mod 2^16, with the exact-sum conjuncts spelling out the
non-wrapping reading), and `take` is returned. -/
theorem C3_evaluate_stub_params_contract (input : List Nat)
    (input_len hdrflags lenleft : Nat) (buffer : List Nat) (buffer_len : Nat)
    (hin : input_len ≤ input.length) :
    ((min lenleft input_len = 0) →
      evaluate_stub_params input input_len hdrflags lenleft buffer buffer_len
        = (0, buffer, buffer_len)) ∧
    (0 < min lenleft input_len →
      (evaluate_stub_params input input_len hdrflags lenleft buffer
          buffer_len).1 = min lenleft input_len ∧
      (evaluate_stub_params input input_len hdrflags lenleft buffer
          buffer_len).2.1
        = buffer ++ input.take (min lenleft input_len) ∧
      (evaluate_stub_params input input_len hdrflags lenleft buffer
          buffer_len).2.1.length
        = buffer.length + min lenleft input_len ∧
      (evaluate_stub_params input input_len hdrflags lenleft buffer
          buffer_len).2.2
        = ((if hdrflags &&& PFC_FIRST_FRAG > 0 then 0 else buffer_len)
            + min lenleft input_len) % 65536 ∧
      (hdrflags &&& PFC_FIRST_FRAG > 0 → min lenleft input_len < 65536 →
        (evaluate_stub_params input input_len hdrflags lenleft buffer
            buffer_len).2.2 = min lenleft input_len) ∧
      (¬ hdrflags &&& PFC_FIRST_FRAG > 0 →
          buffer_len + min lenleft input_len < 65536 →
        (evaluate_stub_params input input_len hdrflags lenleft buffer
            buffer_len).2.2 = buffer_len + min lenleft input_len)) := by
  constructor
  · intro h0
    unfold evaluate_stub_params
    rw [if_pos h0]
  · intro hpos
    unfold evaluate_stub_params
    rw [if_neg (by omega)]
    dsimp only
    refine ⟨rfl, rfl, ?_, rfl, ?_, ?_⟩
    · have htk : (input.take (min lenleft input_len)).length
          = min lenleft input_len := by
        rw [List.length_take]
        omega
      rw [List.length_append, htk]
    · intro hflag hlt
      rw [if_pos hflag]
      omega
    · intro hflag hlt
      rw [if_neg hflag]
      exact Nat.mod_eq_of_lt hlt

/-- C3 witness: a concrete call with the first-fragment bit set, a stale
logical length of 7, and two bytes available under the budget. -/
theorem C3_witness :
    (evaluate_stub_params [1, 2, 3, 4] 4 1 2 [9] 7).1 = 2 ∧
    (evaluate_stub_params [1, 2, 3, 4] 4 1 2 [9] 7).2.1 = [9, 1, 2] ∧
    (evaluate_stub_params [1, 2, 3, 4] 4 1 2 [9] 7).2.2 = 2 := by
  obtain ⟨-, h⟩ := C3_evaluate_stub_params_contract [1, 2, 3, 4] 4 1 2 [9] 7
    (by decide)
  obtain ⟨h1, h2, h3, h4, h5, h6⟩ := h (by decide)
  exact ⟨h1, by simpa using h2, h5 (by decide) (by decide)⟩

/-! ### Claim C4 -/

/-- C4: in every call to `handle_fragment_data` the count obtained from the
stub assembler is at most the remaining-fragment-length counter at entry
(the assembler takes `min fraglenleft input_len` of the snapshot passed in),
so the decrement of `fraglenleft` never underflows — the new counter plus
the returned count equals the old counter exactly; and a datagram with an
unrecognized packet type, or with no matching transaction, contributes zero
and leaves the whole state unchanged. -/
theorem C4_no_underflow (s : DCERPCUDPState) (input : List Nat)
    (input_len : Nat) :
    (handle_fragment_data s input input_len).1 ≤ s.fraglenleft ∧
    (handle_fragment_data s input input_len).2.fraglenleft
        + (handle_fragment_data s input input_len).1 = s.fraglenleft ∧
    ((get_hdr_pkt_type s).getD 0 ≠ DCERPC_TYPE_REQUEST →
      (get_hdr_pkt_type s).getD 0 ≠ DCERPC_TYPE_RESPONSE →
      handle_fragment_data s input input_len = (0, s)) ∧
    (find_tx s.transactions (evaluate_serial_no s) = none →
      handle_fragment_data s input input_len = (0, s)) := by
  have hle : (handle_fragment_data s input input_len).1 ≤ s.fraglenleft :=
    le_trans (handle_fragment_data_retval_le s input input_len)
      (Nat.min_le_left _ _)
  refine ⟨hle, ?_, ?_, ?_⟩
  · rw [handle_fragment_data_fraglenleft s input input_len]
    omega
  · intro hreq hresp
    unfold handle_fragment_data
    dsimp only
    rcases hf : find_tx s.transactions (evaluate_serial_no s) with _ | ⟨i, tx⟩
    · rfl
    · dsimp only
      rw [if_neg hreq, if_neg hresp]
  · intro hnone
    unfold handle_fragment_data
    dsimp only
    rw [hnone]

/-- C4 witness: a state with an installed request-type header, a matching
transaction and a remaining budget of 5; and a state whose header carries an
unrecognized packet type 7. -/
theorem C4_witness :
    (handle_fragment_data
        { DCERPCUDPState.new with
            header := some (decode_header_fields (mkInput 8 84 0 []))
            fraglenleft := 5
            transactions := [{ DCERPCTransaction.new with call_id := 0 }] }
        [1, 2, 3] 3).1
      ≤ (5 : Nat) ∧
    (handle_fragment_data
        { DCERPCUDPState.new with
            header := some { decode_header_fields (mkInput 8 84 0 []) with
              pkt_type := 7 }
            fraglenleft := 5
            transactions := [{ DCERPCTransaction.new with call_id := 0 }] }
        [1, 2, 3] 3)
      = (0,
        { DCERPCUDPState.new with
            header := some { decode_header_fields (mkInput 8 84 0 []) with
              pkt_type := 7 }
            fraglenleft := 5
            transactions := [{ DCERPCTransaction.new with call_id := 0 }] }) := by
  constructor
  · exact (C4_no_underflow _ [1, 2, 3] 3).1
  · exact (C4_no_underflow _ [1, 2, 3] 3).2.2.1 (by decide) (by decide)

/-! ### Claim C7 -/

/-- C7: `evaluate_serial_no` is a deterministic pure function of the
currently installed header; when bit 0x10 of the first byte-order-descriptor
byte is 0 it returns `(serial_lo <<< 8) ||| serial_hi`, and when that bit is
set it returns `(serial_hi <<< 8) ||| serial_lo`. -/
theorem C7_serial_no_spec (s : DCERPCUDPState) (hdr : DCERPCHdrUdp)
    (hh : s.header = some hdr)
    (hhi : hdr.serial_hi < 256) (hlo : hdr.serial_lo < 256) :
    (∀ s2 : DCERPCUDPState, s2.header = s.header →
      evaluate_serial_no s2 = evaluate_serial_no s) ∧
    (hdr.drep.headD 0 &&& 16 = 0 →
      evaluate_serial_no s = (hdr.serial_lo <<< 8) ||| hdr.serial_hi) ∧
    (hdr.drep.headD 0 &&& 16 ≠ 0 →
      evaluate_serial_no s = (hdr.serial_hi <<< 8) ||| hdr.serial_lo) := by
  refine ⟨?_, ?_, ?_⟩
  · intro s2 h2
    rw [evaluate_serial_no_header (h2.trans hh), evaluate_serial_no_header hh]
  · intro hbit
    rw [evaluate_serial_no_header hh]
    unfold serial_of_header
    rw [if_pos hbit]
    exact u16_rotate_or_byte _ _ hlo hhi
  · intro hbit
    rw [evaluate_serial_no_header hh]
    unfold serial_of_header
    rw [if_neg hbit]
    exact u16_rotate_or_byte _ _ hhi hlo

/-- A header with the endianness bit clear and serial bytes 0x12/0x34. -/
def c7_hdr0 : DCERPCHdrUdp :=
  { decode_header_fields (mkInput 8 0 0 []) with
      drep := [0, 0, 0], serial_hi := 18, serial_lo := 52 }

/-- The same header with the endianness bit set in drep byte 0. -/
def c7_hdr1 : DCERPCHdrUdp :=
  { decode_header_fields (mkInput 8 0 0 []) with
      drep := [16, 0, 0], serial_hi := 18, serial_lo := 52 }

/-- C7 witness: two installed headers with serial bytes 0x12/0x34, one with
the endianness bit clear (drep byte 0 = 0), one with it set (drep byte 0 =
0x10). -/
theorem C7_witness :
    evaluate_serial_no { DCERPCUDPState.new with header := some c7_hdr0 }
      = 13330 ∧
    evaluate_serial_no { DCERPCUDPState.new with header := some c7_hdr1 }
      = 4660 := by
  constructor
  · have h := (C7_serial_no_spec
      { DCERPCUDPState.new with header := some c7_hdr0 } c7_hdr0 rfl
      (by decide) (by decide)).2.1 (by decide)
    exact h.trans (by decide)
  · have h := (C7_serial_no_spec
      { DCERPCUDPState.new with header := some c7_hdr1 } c7_hdr1 rfl
      (by decide) (by decide)).2.2 (by decide)
    exact h.trans (by decide)

/-! ### Claim C8 -/

/-- C8: `find_tx` scans the transaction list in insertion order and returns
the first transaction whose `call_id` equals the serial number (every
earlier entry differs); consequently, in `handle_fragment_data` the fragment
bytes are appended to that earliest-inserted matching transaction — the
entry at the found index receives the bytes in the direction selected by
the packet type, and every other entry (in particular any later duplicate,
such as the transaction just created for the current datagram) is left
untouched. -/
theorem C8_first_match_wins :
    (∀ (l : List DCERPCTransaction) (serial_no i : Nat)
        (t : DCERPCTransaction),
      find_tx l serial_no = some (i, t) →
      i < l.length ∧ l.getD i DCERPCTransaction.new = t ∧
        t.call_id = serial_no ∧
        ∀ j, j < i → (l.getD j DCERPCTransaction.new).call_id ≠ serial_no) ∧
    (∀ (s : DCERPCUDPState) (input : List Nat) (input_len i : Nat)
        (t : DCERPCTransaction),
      find_tx s.transactions (evaluate_serial_no s) = some (i, t) →
      (∀ j, j ≠ i →
        (handle_fragment_data s input input_len).2.transactions.getD j
            DCERPCTransaction.new
          = s.transactions.getD j DCERPCTransaction.new) ∧
      ((get_hdr_pkt_type s).getD 0 = DCERPC_TYPE_REQUEST →
        ((handle_fragment_data s input input_len).2.transactions.getD i
            DCERPCTransaction.new).stub_data_buffer_ts
          = t.stub_data_buffer_ts
            ++ input.take (min s.fraglenleft input_len)) ∧
      ((get_hdr_pkt_type s).getD 0 = DCERPC_TYPE_RESPONSE →
        ((handle_fragment_data s input input_len).2.transactions.getD i
            DCERPCTransaction.new).stub_data_buffer_tc
          = t.stub_data_buffer_tc
            ++ input.take (min s.fraglenleft input_len))) := by
  refine ⟨find_tx_spec, ?_⟩
  intro s input input_len i t hf
  obtain ⟨hi, hgd, hcid, hfirst⟩ := find_tx_spec _ _ _ _ hf
  unfold handle_fragment_data
  dsimp only
  rw [hf]
  dsimp only
  by_cases hreq : (get_hdr_pkt_type s).getD 0 = DCERPC_TYPE_REQUEST
  · rw [if_pos hreq]
    refine ⟨?_, ?_, ?_⟩
    · intro j hj
      exact list_getD_set_ne _ _ _ _ _ hj
    · intro _
      rw [list_getD_set_self _ _ _ _ hi]
      dsimp only
      rw [evaluate_stub_params_buf]
    · intro hresp
      rw [hreq] at hresp
      exact absurd hresp (by decide)
  · rw [if_neg hreq]
    by_cases hresp : (get_hdr_pkt_type s).getD 0 = DCERPC_TYPE_RESPONSE
    · rw [if_pos hresp]
      refine ⟨?_, ?_, ?_⟩
      · intro j hj
        exact list_getD_set_ne _ _ _ _ _ hj
      · intro hreq2
        exact absurd hreq2 hreq
      · intro _
        rw [list_getD_set_self _ _ _ _ hi]
        dsimp only
        rw [evaluate_stub_params_buf]
    · rw [if_neg hresp]
      exact ⟨fun j hj => rfl, fun hreq2 => absurd hreq2 hreq,
        fun hresp2 => absurd hresp2 hresp⟩

/-- C8 witness: a state holding two transactions with the same call
identifier 0; the request-type fragment bytes land in the first one and the
second is untouched. -/
theorem C8_witness :
    ((handle_fragment_data
        { DCERPCUDPState.new with
            header := some (decode_header_fields (mkInput 8 84 0 []))
            fraglenleft := 3
            transactions := [{ DCERPCTransaction.new with call_id := 0 },
              { DCERPCTransaction.new with call_id := 0, id := 1 }] }
        [7, 8, 9] 3).2.transactions.getD 1 DCERPCTransaction.new
      = { DCERPCTransaction.new with call_id := 0, id := 1 }) ∧
    ((handle_fragment_data
        { DCERPCUDPState.new with
            header := some (decode_header_fields (mkInput 8 84 0 []))
            fraglenleft := 3
            transactions := [{ DCERPCTransaction.new with call_id := 0 },
              { DCERPCTransaction.new with call_id := 0, id := 1 }] }
        [7, 8, 9] 3).2.transactions.getD 0 DCERPCTransaction.new).stub_data_buffer_ts
      = [7, 8, 9] := by
  have h := C8_first_match_wins.2
    { DCERPCUDPState.new with
        header := some (decode_header_fields (mkInput 8 84 0 []))
        fraglenleft := 3
        transactions := [{ DCERPCTransaction.new with call_id := 0 },
          { DCERPCTransaction.new with call_id := 0, id := 1 }] }
    [7, 8, 9] 3 0 { DCERPCTransaction.new with call_id := 0 } (by decide)
  constructor
  · exact (h.1 1 (by decide)).trans (by decide)
  · exact (h.2.1 (by decide)).trans (by decide)

/-! ### Claim C9 -/

/-- The exactly-80-byte well-formed header from the source's own
`test_process_header_udp_perfect_hdr` unit test. -/
def test_hdr_bytes : List Nat :=
  [0x04, 0x00, 0x08, 0x00, 0x10, 0x00, 0x00, 0x00, 0x00, 0x00, 0x00, 0x00,
   0x00, 0x00, 0x00, 0x00, 0x00, 0x00, 0x00, 0x00, 0x00, 0x00, 0x00, 0x00,
   0xb8, 0x4a, 0x9f, 0x4d, 0x1c, 0x7d, 0xcf, 0x11, 0x86, 0x1e, 0x00, 0x20,
   0xaf, 0x6e, 0x7c, 0x57, 0x86, 0xc2, 0x37, 0x67, 0xf7, 0x1e, 0xd1, 0x11,
   0xbc, 0xd9, 0x00, 0x60, 0x97, 0x92, 0xd2, 0x6c, 0x79, 0xbe, 0x01, 0x34,
   0x00, 0x00, 0x00, 0x00, 0x00, 0x00, 0x00, 0x00, 0x00, 0x00, 0xff, 0xff,
   0xff, 0xff, 0x68, 0x00, 0x00, 0x00, 0x0a, 0x00]

/-- C9: whenever the header decoder succeeds on the input (which for the
fixed-size codec means at least 80 bytes are available) and the decoded
version field equals 4, `process_header` returns exactly 80 as the consumed
count, installs the decoded header as the flow's current header (replacing
any prior one) and appends exactly one entry carrying the header's activity
UUID to the UUID history list — together; on a version mismatch it returns
-1 and performs neither side effect. -/
theorem C9_process_header_contract (s : DCERPCUDPState) (input : List Nat)
    (hlen : 80 ≤ input.length) :
    ((decode_header_fields input).rpc_vers = 4 →
      process_header s input
        = (80, { s with
            uuid_list := s.uuid_list
              ++ [{ uuid := (decode_header_fields input).activityuuid }]
            header := some (decode_header_fields input) })) ∧
    ((decode_header_fields input).rpc_vers ≠ 4 →
      process_header s input = (-1, s)) := by
  constructor
  · intro hvers
    exact process_header_success s input hlen hvers
  · intro hvers
    unfold process_header
    rw [parse_header_eq hlen]
    dsimp only
    rw [if_pos (by simp [hvers])]

/-- C9 witness: the source's own well-formed 80-byte header, fed to a state
that already holds a prior header and a prior UUID entry; and the same bytes
with the version byte changed to 5. -/
theorem C9_witness :
    process_header
        { DCERPCUDPState.new with
            header := some c7_hdr0
            uuid_list := [{ uuid := [1] }] }
        test_hdr_bytes
      = (80,
          { DCERPCUDPState.new with
              header := some (decode_header_fields test_hdr_bytes)
              uuid_list := [{ uuid := [1] },
                { uuid := (decode_header_fields test_hdr_bytes).activityuuid }] }) ∧
    process_header DCERPCUDPState.new (5 :: test_hdr_bytes.tail)
      = (-1, DCERPCUDPState.new) := by
  constructor
  · have h := (C9_process_header_contract
      { DCERPCUDPState.new with
          header := some c7_hdr0
          uuid_list := [{ uuid := [1] }] }
      test_hdr_bytes (by decide)).1 (by decide)
    exact h.trans (by decide)
  · exact (C9_process_header_contract DCERPCUDPState.new
      (5 :: test_hdr_bytes.tail) (by decide)).2 (by decide)

/-! ### Claim C5 -/

/-- C5: if, during the body-reassembly loop, `handle_fragment_data` returns
0 or a count exceeding the (16-bit-cast) remaining input while unconsumed
input remains, the loop stops right there with the state produced by that
call — the remaining bytes of the datagram are discarded without retry —
and `handle_input_data` still reports success and keeps the installed
header whenever the datagram passed the header stage. -/
theorem C5_framing_error_discard :
    (∀ (input : List Nat) (fraglen fuel parsed il : Nat) (s : DCERPCUDPState),
      0 < fuel →
      (DCERPC_UDP_HDR_LEN ≤ parsed ∧ parsed < fraglen ∧ 0 < il) →
      ((handle_fragment_data s (input.drop parsed) (il % 65536)).1 = 0 ∨
        il % 65536
          < (handle_fragment_data s (input.drop parsed) (il % 65536)).1) →
      dcerpc_udp_body_loop input fraglen fuel parsed il s
        = (handle_fragment_data s (input.drop parsed) (il % 65536)).2) ∧
    (∀ (s : DCERPCUDPState) (input : List Nat),
      ¬ i32_of_usize input.length < 80 →
      (decode_header_fields input).rpc_vers = 4 →
      (handle_input_data s input).1 = AppLayerResult.ok ∧
      (handle_input_data s input).2.header
        = some (decode_header_fields input)) := by
  constructor
  · intro input fraglen fuel parsed il s hfuel hcond hbad
    rw [body_loop_unfold input fraglen fuel parsed il s hfuel, if_pos hcond]
    dsimp only
    rw [if_neg (by
      rintro ⟨hpos, hle⟩
      rcases hbad with h0 | hgt <;> omega)]
  · intro s input hcast hvers
    rw [handle_input_data_success s input hcast hvers]
    refine ⟨rfl, ?_⟩
    dsimp only
    rw [(body_loop_preserved _ _ _ _ _ _).2.2.1]

/-- C5 witness: a fresh flow state with no transactions makes the assembler
report 0 with five unconsumed bytes, so the loop stops at once; and a
well-formed single-fragment datagram is still reported as success. -/
theorem C5_witness :
    dcerpc_udp_body_loop (mkInput 8 0 0 []) 100 5 80 5 DCERPCUDPState.new
      = DCERPCUDPState.new ∧
    (handle_input_data DCERPCUDPState.new
        (mkInput 8 90 0 (List.replicate 90 144))).1 = AppLayerResult.ok := by
  constructor
  · have h := C5_framing_error_discard.1 (mkInput 8 0 0 []) 100 5 80 5
      DCERPCUDPState.new (by decide) (by decide) (by decide)
    exact h.trans (by decide)
  · exact (C5_framing_error_discard.2 DCERPCUDPState.new
      (mkInput 8 90 0 (List.replicate 90 144)) (by decide) (by decide)).1

/-! ### Claims C2 and C6 -/

/-- A datagram of 2^31 bytes: version byte 4 followed by zeros.  Its header
decodes fine, but `input.len() as i32` is negative, so `handle_input_data`
rejects it at the length gate. -/
def big_input : List Nat := 4 :: List.replicate 2147483647 0

theorem big_input_length : big_input.length = 2147483648 := by
  unfold big_input
  rw [List.length_cons, List.length_replicate]

theorem big_input_cast_neg : i32_of_usize big_input.length < 80 := by
  rw [big_input_length]
  unfold i32_of_usize
  rw [Nat.mod_eq_of_lt (by norm_num), if_neg (by norm_num)]
  norm_num

/-- C2 (amended): for every datagram whose header parses successfully and
whose length, cast to a signed 32-bit integer, is at least the 80-byte
header length, `handle_input_data` unconditionally creates and appends
exactly one new transaction to the flow's transaction list — the existing
store is never consulted for reuse, so this holds for an arbitrary prior
transaction list, including one that already holds the same call identifier
— with `call_id` the derived 16-bit serial number (widened), `endianness`
bit 0x10 of drep byte 0, and `id` the flow's transaction-id counter, which
is then incremented (as a `u32`, i.e. mod 2^32). -/
theorem C2_unconditional_new_transaction (s : DCERPCUDPState)
    (input : List Nat) (l : Nat) (hdr : DCERPCHdrUdp)
    (hparse : parse_dcerpc_udp_header input = some (l, hdr))
    (hvers : hdr.rpc_vers = 4)
    (hcast : ¬ i32_of_usize input.length < 80) :
    (handle_input_data s input).1 = AppLayerResult.ok ∧
    (handle_input_data s input).2.transactions.length
        = s.transactions.length + 1 ∧
    ((handle_input_data s input).2.transactions.getD s.transactions.length
        DCERPCTransaction.new).call_id = serial_of_header hdr ∧
    ((handle_input_data s input).2.transactions.getD s.transactions.length
        DCERPCTransaction.new).id = s.tx_id ∧
    ((handle_input_data s input).2.transactions.getD s.transactions.length
        DCERPCTransaction.new).endianness = hdr.drep.headD 0 &&& 16 ∧
    (handle_input_data s input).2.tx_id = (s.tx_id + 1) % 4294967296 := by
  have hlen : 80 ≤ input.length := len_ge_80_of_cast hcast
  rw [parse_header_eq hlen] at hparse
  simp only [Option.some.injEq, Prod.mk.injEq] at hparse
  obtain ⟨-, hhdr⟩ := hparse
  subst hhdr
  rw [handle_input_data_success s input hcast hvers]
  dsimp only
  refine ⟨rfl, ?_, ?_, ?_, ?_, ?_⟩
  · rw [(body_loop_preserved _ _ _ _ _ _).1]
    dsimp only
    rw [List.length_append]
    rfl
  · rw [((body_loop_preserved _ _ _ _ _ _).2.2.2.2 s.transactions.length).1]
    dsimp only
    rw [list_getD_append_last]
  · rw [((body_loop_preserved _ _ _ _ _ _).2.2.2.2 s.transactions.length).2.1]
    dsimp only
    rw [list_getD_append_last]
  · rw [((body_loop_preserved _ _ _ _ _ _).2.2.2.2 s.transactions.length).2.2]
    dsimp only
    rw [list_getD_append_last]
  · rw [(body_loop_preserved _ _ _ _ _ _).2.1]

/-- C2 counterexample: the 2^31-byte datagram's header parses successfully
(version 4), yet `handle_input_data` creates no transaction at all — it
returns an error because the length cast to `i32` is negative — so the
claim's "for every datagram whose header parses successfully" premise does
not suffice. -/
theorem C2_counterexample :
    parse_dcerpc_udp_header big_input
        = some (big_input.length - 80, decode_header_fields big_input) ∧
    (decode_header_fields big_input).rpc_vers = 4 ∧
    (handle_input_data DCERPCUDPState.new big_input).1 = AppLayerResult.err ∧
    (handle_input_data DCERPCUDPState.new big_input).2.transactions = [] := by
  refine ⟨parse_header_eq (by rw [big_input_length]; norm_num), rfl, ?_, ?_⟩
  · unfold handle_input_data
    rw [if_pos (by simpa [DCERPC_UDP_HDR_LEN] using big_input_cast_neg)]
  · unfold handle_input_data
    rw [if_pos (by simpa [DCERPC_UDP_HDR_LEN] using big_input_cast_neg)]
    rfl

/-- C2 witness: a flow state that already stores a transaction with call
identifier 0 receives a datagram whose derived serial number is also 0; a
second transaction with the same call identifier is appended anyway. -/
theorem C2_witness :
    (handle_input_data
        { DCERPCUDPState.new with
            tx_id := 1
            transactions := [{ DCERPCTransaction.new with call_id := 0 }] }
        (mkInput 8 0 0 [])).2.transactions.length = 2 ∧
    ((handle_input_data
        { DCERPCUDPState.new with
            tx_id := 1
            transactions := [{ DCERPCTransaction.new with call_id := 0 }] }
        (mkInput 8 0 0 [])).2.transactions.getD 1
        DCERPCTransaction.new).call_id = 0 ∧
    (handle_input_data
        { DCERPCUDPState.new with
            tx_id := 1
            transactions := [{ DCERPCTransaction.new with call_id := 0 }] }
        (mkInput 8 0 0 [])).2.tx_id = 2 := by
  have h := C2_unconditional_new_transaction
    { DCERPCUDPState.new with
        tx_id := 1
        transactions := [{ DCERPCTransaction.new with call_id := 0 }] }
    (mkInput 8 0 0 []) ((mkInput 8 0 0 []).length - 80)
    (decode_header_fields (mkInput 8 0 0 [])) (by decide) (by decide)
    (by decide)
  exact ⟨h.2.1.trans (by decide), h.2.2.1.trans (by decide),
    h.2.2.2.2.2.trans (by decide)⟩

/-- C6 (amended): `handle_input_data` returns an error exactly when the
input length cast to a signed 32-bit value is below 80 (for real datagrams
this is "shorter than 80 bytes", but a slice of length 2^31 or more also
casts below 80), the header decoder fails, or the decoded version differs
from 4; and whenever it returns an error the flow state is left completely
unchanged. -/
theorem C6_error_conditions (s : DCERPCUDPState) (input : List Nat) :
    ((handle_input_data s input).1 = AppLayerResult.err
      ↔ (i32_of_usize input.length < 80
          ∨ parse_dcerpc_udp_header input = none
          ∨ (decode_header_fields input).rpc_vers ≠ 4)) ∧
    ((handle_input_data s input).1 = AppLayerResult.err →
      (handle_input_data s input).2 = s) := by
  constructor
  · rw [handle_input_data_err_iff, parse_header_none_iff]
  · exact handle_input_data_err_state s input

/-- C6 counterexample: the 2^31-byte datagram is rejected although none of
the claim's three error conditions holds — it is not shorter than 80 bytes,
its header decodes, and the decoded version is 4. -/
theorem C6_counterexample :
    (handle_input_data DCERPCUDPState.new big_input).1 = AppLayerResult.err ∧
    ¬ (big_input.length < 80
        ∨ parse_dcerpc_udp_header big_input = none
        ∨ (decode_header_fields big_input).rpc_vers ≠ 4) := by
  constructor
  · unfold handle_input_data
    rw [if_pos (by simpa [DCERPC_UDP_HDR_LEN] using big_input_cast_neg)]
  · rintro (h | h | h)
    · rw [big_input_length] at h
      norm_num at h
    · rw [parse_header_none_iff, big_input_length] at h
      norm_num at h
    · exact h rfl

/-- C6 witness: the empty input is rejected with the state unchanged. -/
theorem C6_witness :
    (handle_input_data DCERPCUDPState.new []).1 = AppLayerResult.err ∧
    (handle_input_data DCERPCUDPState.new []).2 = DCERPCUDPState.new := by
  have h := C6_error_conditions DCERPCUDPState.new []
  have herr : (handle_input_data DCERPCUDPState.new []).1
      = AppLayerResult.err := h.1.mpr (Or.inl (by decide))
  exact ⟨herr, h.2 herr⟩

/-! ### handle_fragment_data on a freshly created single transaction -/

theorem handle_fragment_data_request_fresh (s : DCERPCUDPState)
    (hdr : DCERPCHdrUdp) (inp : List Nat) (n : Nat) (tx : DCERPCTransaction)
    (hh : s.header = some hdr)
    (htype : hdr.pkt_type = DCERPC_TYPE_REQUEST)
    (htx : s.transactions = [tx])
    (hcid : tx.call_id = serial_of_header hdr)
    (hn : 0 < min s.fraglenleft n) :
    handle_fragment_data s inp n
      = (min s.fraglenleft n,
          { s with
              transactions := [{ tx with
                stub_data_buffer_ts :=
                  tx.stub_data_buffer_ts ++ inp.take (min s.fraglenleft n)
                stub_data_buffer_len_ts :=
                  ((if hdr.flags1 &&& PFC_FIRST_FRAG > 0 then 0
                    else tx.stub_data_buffer_len_ts) + min s.fraglenleft n)
                    % 65536
                req_done := true
                frag_cnt_ts := (tx.frag_cnt_ts + 1) % 65536 }]
              fraglenleft := s.fraglenleft - min s.fraglenleft n }) := by
  unfold handle_fragment_data
  rw [get_hdr_flags1_some hh, get_hdr_pkt_type_some hh,
    evaluate_serial_no_header hh, htx]
  dsimp only
  unfold find_tx
  rw [if_pos hcid]
  simp only [Option.getD_some]
  rw [if_pos htype]
  unfold evaluate_stub_params
  rw [if_neg (by omega)]
  rfl

/-! ### Claim C1 -/

theorem end_to_end_loop (input : List Nat) (L : Nat) (s4 : DCERPCUDPState)
    (hdr : DCERPCHdrUdp)
    (hh : s4.header = some hdr)
    (hfll : s4.fraglenleft = L)
    (htype : hdr.pkt_type = DCERPC_TYPE_REQUEST)
    (htx : ∃ tx : DCERPCTransaction, s4.transactions = [tx] ∧
      tx.call_id = serial_of_header hdr ∧ tx.stub_data_buffer_ts = [] ∧
      tx.stub_data_buffer_len_ts = 0)
    (hL : 80 < L) (hL16 : L < 65536)
    (hinp : (input.drop 80).length = L) :
    (dcerpc_udp_body_loop input L L 80 L s4).fraglenleft = 0 ∧
    ((dcerpc_udp_body_loop input L L 80 L s4).transactions.getD 0
        DCERPCTransaction.new).stub_data_buffer_len_ts = L ∧
    ((dcerpc_udp_body_loop input L L 80 L s4).transactions.getD 0
        DCERPCTransaction.new).stub_data_buffer_ts = input.drop 80 := by
  obtain ⟨tx, htx, hcid, hts, hlents⟩ := htx
  have hmod : L % 65536 = L := Nat.mod_eq_of_lt hL16
  rw [body_loop_unfold _ _ _ _ _ _ (by omega),
    if_pos ⟨by norm_num [DCERPC_UDP_HDR_LEN], hL, by omega⟩]
  dsimp only
  rw [hmod]
  rw [handle_fragment_data_request_fresh s4 hdr (input.drop 80) L tx hh htype
    htx hcid (by rw [hfll, min_self]; omega)]
  dsimp only
  have hminLL : min s4.fraglenleft L = L := by rw [hfll, min_self]
  rw [hminLL]
  rw [if_pos ⟨by omega, le_refl L⟩]
  rw [Nat.sub_self, body_loop_il_zero]
  refine ⟨?_, ?_, ?_⟩
  · dsimp only
    rw [hfll, Nat.sub_self]
  · simp only [List.getD_cons_zero]
    rw [hlents, ite_self, Nat.zero_add]
    exact hmod
  · simp only [List.getD_cons_zero]
    rw [hts, List.nil_append, ← hinp, List.take_length]

/-- C1 (amended): for a single datagram whose 80-byte request-type header
parses successfully and declares fragment length L with 80 < L, and whose
body after the header contains exactly L bytes of stub payload delivered in
one piece — in this code the fragment-length field counts only the stub
body, not the 80-byte header — `handle_input_data` on a fresh flow state
succeeds, the remaining-fragment-length counter ends at 0 and the
transaction's request-direction stub buffer holds exactly those L body
bytes (so its logical length is L). -/
theorem C1_end_to_end (input : List Nat) (L : Nat)
    (hlen : input.length = 80 + L)
    (hL : 80 < L)
    (hfl : (decode_header_fields input).fraglen = L)
    (hvers : (decode_header_fields input).rpc_vers = 4)
    (htype : (decode_header_fields input).pkt_type = DCERPC_TYPE_REQUEST) :
    (handle_input_data DCERPCUDPState.new input).1 = AppLayerResult.ok ∧
    (handle_input_data DCERPCUDPState.new input).2.fraglenleft = 0 ∧
    ((handle_input_data DCERPCUDPState.new input).2.transactions.getD 0
        DCERPCTransaction.new).stub_data_buffer_len_ts = L ∧
    ((handle_input_data DCERPCUDPState.new input).2.transactions.getD 0
        DCERPCTransaction.new).stub_data_buffer_ts = input.drop 80 := by
  have hL16 : L < 65536 := hfl ▸ decode_fraglen_lt input
  have hcast : ¬ i32_of_usize input.length < 80 := by
    rw [hlen, i32_of_usize_small (by omega)]
    omega
  have hIL : (i32_of_usize input.length - 80).toNat = L := by
    rw [hlen, i32_of_usize_small (by omega)]
    omega
  have hdrop : (input.drop 80).length = L := by
    rw [List.length_drop, hlen]
    omega
  rw [handle_input_data_success DCERPCUDPState.new input hcast hvers]
  dsimp only
  rw [hIL, hfl]
  exact ⟨rfl,
    (end_to_end_loop input L _ (decode_header_fields input) rfl rfl htype
      ⟨_, rfl, rfl, rfl, rfl⟩ hL hL16 hdrop).1,
    (end_to_end_loop input L _ (decode_header_fields input) rfl rfl htype
      ⟨_, rfl, rfl, rfl, rfl⟩ hL hL16 hdrop).2.1,
    (end_to_end_loop input L _ (decode_header_fields input) rfl rfl htype
      ⟨_, rfl, rfl, rfl, rfl⟩ hL hL16 hdrop).2.2⟩

/-- C1 counterexample: a datagram whose header declares fragment length
L = 84 and whose body after the 80-byte header contains exactly L - 80 = 4
bytes, as the claim prescribes.  After processing, the remaining counter is
80, not 0 (the fragment-length field counts only the body, so only
min(84, 4) = 4 bytes are budgeted away), refuting the claimed conjunction
even though the directional stub length is indeed L - 80 = 4. -/
theorem C1_counterexample :
    (decode_header_fields (mkInput 8 84 0 (List.replicate 4 144))).rpc_vers
        = 4 ∧
    (decode_header_fields (mkInput 8 84 0 (List.replicate 4 144))).pkt_type
        = DCERPC_TYPE_REQUEST ∧
    (decode_header_fields (mkInput 8 84 0 (List.replicate 4 144))).fraglen
        = 84 ∧
    (mkInput 8 84 0 (List.replicate 4 144)).length = 84 ∧
    ((handle_input_data DCERPCUDPState.new
        (mkInput 8 84 0 (List.replicate 4 144))).2.transactions.getD 0
        DCERPCTransaction.new).stub_data_buffer_len_ts = 4 ∧
    (handle_input_data DCERPCUDPState.new
        (mkInput 8 84 0 (List.replicate 4 144))).2.fraglenleft = 80 := by
  decide

/-- C1 witness: a request datagram of 80 + 90 bytes whose header declares
fragment length 90; the counter drains to 0 and the 90 body bytes land in
the request-direction stub buffer. -/
theorem C1_witness :
    (handle_input_data DCERPCUDPState.new
        (mkInput 8 90 0 (List.replicate 90 144))).2.fraglenleft = 0 ∧
    ((handle_input_data DCERPCUDPState.new
        (mkInput 8 90 0 (List.replicate 90 144))).2.transactions.getD 0
        DCERPCTransaction.new).stub_data_buffer_len_ts = 90 := by
  have h := C1_end_to_end (mkInput 8 90 0 (List.replicate 90 144)) 90
    (by decide) (by decide) (by decide) (by decide) (by decide)
  exact ⟨h.2.1, h.2.2.1⟩

/-! ### Claim C10 -/

/-- A minimal valid header-only datagram (80 bytes, version 4, fragment
length 0). -/
def d80 : List Nat := mkInput 0 0 0 []

theorem d80_step (s : DCERPCUDPState) :
    (handle_input_data s d80).2.transactions.length
        = s.transactions.length + 1 ∧
    (handle_input_data s d80).2.tx_id = (s.tx_id + 1) % 4294967296 := by
  rw [handle_input_data_success s d80 (by decide) (by decide)]
  dsimp only
  constructor
  · rw [(body_loop_preserved _ _ _ _ _ _).1]
    dsimp only
    rw [List.length_append]
    rfl
  · rw [(body_loop_preserved _ _ _ _ _ _).2.1]

theorem d80_iter (n : Nat) :
    ∀ s : DCERPCUDPState, s.tx_id < 4294967296 →
    ((List.replicate n d80).foldl
        (fun s d => (handle_input_data s d).2) s).transactions.length
      = s.transactions.length + n ∧
    ((List.replicate n d80).foldl
        (fun s d => (handle_input_data s d).2) s).tx_id
      = (s.tx_id + n) % 4294967296 := by
  induction n with
  | zero =>
      intro s hs
      rw [List.replicate_zero, List.foldl_nil]
      exact ⟨rfl, by rw [Nat.add_zero, Nat.mod_eq_of_lt hs]⟩
  | succ n ih =>
      intro s hs
      rw [List.replicate_succ, List.foldl_cons]
      obtain ⟨g1, g2⟩ := d80_step s
      obtain ⟨h1, h2⟩ := ih ((handle_input_data s d80).2)
        (by rw [g2]; exact Nat.mod_lt _ (by norm_num))
      refine ⟨by rw [h1, g1]; omega, ?_⟩
      rw [h2, g2]
      omega

theorem handle_input_data_inv_step (s : DCERPCUDPState) (d : List Nat)
    (h1 : s.tx_id = s.transactions.length % 4294967296)
    (h2 : ∀ i, i < s.transactions.length →
      (s.transactions.getD i DCERPCTransaction.new).id = i % 4294967296) :
    (handle_input_data s d).2.tx_id
        = (handle_input_data s d).2.transactions.length % 4294967296 ∧
    ∀ i, i < (handle_input_data s d).2.transactions.length →
      ((handle_input_data s d).2.transactions.getD i
          DCERPCTransaction.new).id = i % 4294967296 := by
  by_cases hcast : i32_of_usize d.length < 80
  · have hstate : (handle_input_data s d).2 = s := by
      unfold handle_input_data
      rw [if_pos (by simpa [DCERPC_UDP_HDR_LEN] using hcast)]
    rw [hstate]
    exact ⟨h1, h2⟩
  · by_cases hvers : (decode_header_fields d).rpc_vers = 4
    · rw [handle_input_data_success s d hcast hvers]
      dsimp only
      constructor
      · rw [(body_loop_preserved _ _ _ _ _ _).2.1,
          (body_loop_preserved _ _ _ _ _ _).1]
        dsimp only
        simp only [List.length_append, List.length_cons, List.length_nil]
        rw [h1]
        omega
      · intro i hi
        rw [((body_loop_preserved _ _ _ _ _ _).2.2.2.2 i).2.1]
        rw [(body_loop_preserved _ _ _ _ _ _).1] at hi
        dsimp only at hi ⊢
        simp only [List.length_append, List.length_cons, List.length_nil]
          at hi
        by_cases hilt : i < s.transactions.length
        · rw [list_getD_append_left _ _ _ _ hilt]
          exact h2 i hilt
        · have hieq : i = s.transactions.length := by omega
          subst hieq
          rw [list_getD_append_last]
          dsimp only
          rw [h1]
    · have herr : (handle_input_data s d).1 = AppLayerResult.err :=
        (handle_input_data_err_iff s d).2 (Or.inr (Or.inr hvers))
      rw [handle_input_data_err_state s d herr]
      exact ⟨h1, h2⟩

theorem process_datagrams_inv (ds : List (List Nat)) :
    ∀ s : DCERPCUDPState,
    s.tx_id = s.transactions.length % 4294967296 →
    (∀ i, i < s.transactions.length →
      (s.transactions.getD i DCERPCTransaction.new).id = i % 4294967296) →
    (ds.foldl (fun s d => (handle_input_data s d).2) s).tx_id
        = (ds.foldl (fun s d => (handle_input_data s d).2)
            s).transactions.length % 4294967296 ∧
    ∀ i, i < (ds.foldl (fun s d => (handle_input_data s d).2)
        s).transactions.length →
      ((ds.foldl (fun s d => (handle_input_data s d).2)
          s).transactions.getD i DCERPCTransaction.new).id
        = i % 4294967296 := by
  induction ds with
  | nil =>
      intro s h1 h2
      exact ⟨h1, h2⟩
  | cons d tl ih =>
      intro s h1 h2
      rw [List.foldl_cons]
      obtain ⟨g1, g2⟩ := handle_input_data_inv_step s d h1 h2
      exact ih ((handle_input_data s d).2) g1 g2

/-- C10 (amended): on every flow state reachable from `DCERPCUDPState.new`
by a sequence of `handle_input_data` calls, the `u32` transaction-id counter
equals the number of stored transactions reduced mod 2^32, and the
transaction at index i carries id `i mod 2^32`; in particular ids start at 0
and increase by exactly one in insertion order, and they are unique as long
as fewer than 2^32 transactions have been created. -/
theorem C10_tx_id_invariant (ds : List (List Nat)) :
    (process_datagrams ds).tx_id
        = (process_datagrams ds).transactions.length % 4294967296 ∧
    ∀ i, i < (process_datagrams ds).transactions.length →
      ((process_datagrams ds).transactions.getD i DCERPCTransaction.new).id
        = i % 4294967296 := by
  unfold process_datagrams
  exact process_datagrams_inv ds DCERPCUDPState.new (by decide)
    (by intro i hi; simp [DCERPCUDPState.new] at hi)

/-- C10 counterexample: after 2^32 identical valid header-only datagrams the
`u32` transaction-id counter has wrapped to 0 while 2^32 transactions are
stored, so the unreduced invariant "tx_id equals the number of stored
transactions, and the transaction at index i has id i" fails. -/
theorem C10_counterexample :
    ¬ ((process_datagrams (List.replicate 4294967296 d80)).tx_id
          = (process_datagrams
              (List.replicate 4294967296 d80)).transactions.length ∧
        ∀ i, i < (process_datagrams
            (List.replicate 4294967296 d80)).transactions.length →
          ((process_datagrams
              (List.replicate 4294967296 d80)).transactions.getD i
              DCERPCTransaction.new).id = i) := by
  intro hcl
  obtain ⟨h1, h2⟩ := d80_iter 4294967296 DCERPCUDPState.new (by decide)
  unfold process_datagrams at hcl
  have hc := hcl.1
  rw [h1, h2] at hc
  simp only [DCERPCUDPState.new] at hc
  omega

/-- C10 witness: after one valid datagram the counter is 1, the stored count
is 1, and the transaction at index 0 has id 0. -/
theorem C10_witness :
    (process_datagrams [d80]).tx_id
        = (process_datagrams [d80]).transactions.length % 4294967296 ∧
    ((process_datagrams [d80]).transactions.getD 0
        DCERPCTransaction.new).id = 0 := by
  have h := C10_tx_id_invariant [d80]
  exact ⟨h.1, (h.2 0 (by decide)).trans (by decide)⟩
